import Mathlib

/-!
Verification development for the f6n terminal dashboard (Go).

This file gives a shallow embedding of the parts of the repository that the
checked properties talk about:

* Go string helpers (`strings.ToLower`, `strings.TrimSpace`, `strings.Contains`,
  `strings.HasPrefix`) and lexical path functions (`filepath.Clean`,
  `filepath.Join`, `filepath.Dir`, `filepath.Base`, `filepath.Ext`),
  modelled on `List Char` (Go's Unicode case folding is modelled by the
  ASCII `Char.toLower`; all inputs used in witnesses are ASCII).
* the archive extraction and code-download logic of
  `internal/provider/gcp_provider.go` (`extractZip`, `DownloadFunctionCode`,
  `downloadFromGCS`) over an explicit filesystem state,
* the log-stream polling loop of `StreamFunctionLogs` (timestamps as `Int`),
* the bubbletea UI state machine of `internal/ui` (`Model`, `Update`,
  `handleKeyPress`, `handleInputMode`, `handleWindowSize`,
  `handleFunctionsLoaded`, `filterFunctions`, `executeCommand`), with the
  asynchronous command results represented as a message type.  Messages that
  a background stream command can produce carry a ghost session number
  recording which streaming session issued the command; the handlers never
  inspect it, exactly as the Go handlers have no session tag to inspect.
-/

/-! ## Go string primitives (strings package), on character lists -/

/-- Model of `strings.HasPrefix` on character lists: `startsList s p` is true
when `p` is a prefix of `s`. -/
def startsList : List Char → List Char → Bool
  | _, [] => true
  | [], _ :: _ => false
  | a :: as, b :: bs => a == b && startsList as bs

/-- Model of `strings.Contains` on character lists: `sub` occurs contiguously
inside `s`. -/
def containsList : List Char → List Char → Bool
  | [], sub => sub.isEmpty
  | a :: rest, sub => startsList (a :: rest) sub || containsList rest sub

/-- Model of `strings.HasPrefix`. -/
def strStartsWith (s pre : String) : Bool :=
  startsList s.data pre.data

/-- Model of `strings.Contains`. -/
def goContains (s sub : String) : Bool :=
  containsList s.data sub.data

/-- Model of `strings.ToLower` (ASCII case folding). -/
def goToLower (s : String) : String :=
  String.mk (s.data.map Char.toLower)

/-- White-space test used by `strings.TrimSpace` (the ASCII part of Unicode
white space, which is all the repository ever passes in). -/
def isSpaceChar (c : Char) : Bool :=
  c == ' ' || c == '\t' || c == '\n' || c == '\r'

/-- Model of `strings.TrimSpace`: strip white space from both ends. -/
def goTrimSpace (s : String) : String :=
  String.mk (((s.data.dropWhile isSpaceChar).reverse.dropWhile isSpaceChar).reverse)

/-! ## Lexical path functions (path/filepath package, Unix separators) -/

/-- Split a character list at `/` boundaries into path components. -/
def splitSlash : List Char → List (List Char)
  | [] => [[]]
  | c :: cs =>
    let r := splitSlash cs
    if c == '/' then [] :: r
    else
      match r with
      | [] => [[c]]
      | g :: gs => (c :: g) :: gs

/-- Join components back with `/` separators. -/
def joinSlash : List (List Char) → List Char
  | [] => []
  | [g] => g
  | g :: gs => g ++ '/' :: joinSlash gs

/-- Component processing of `filepath.Clean`: drop empty and `.` components,
resolve `..` against the component stack (the stack holds the most recent
component first); a `..` that cannot be resolved is kept on a relative path
and dropped on a rooted one. -/
def cleanStack (rooted : Bool) (comps : List (List Char)) : List (List Char) :=
  comps.foldl
    (fun acc c =>
      if c = [] ∨ c = ['.'] then acc
      else if c = ['.', '.'] then
        match acc with
        | [] => if rooted then [] else [['.', '.']]
        | a :: rest => if a = ['.', '.'] then c :: acc else rest
      else c :: acc)
    []

/-- Model of `filepath.Clean` for Unix paths: lexically remove duplicate
separators, `.` components and resolvable `..` components; the result of
cleaning an empty path is `.`. -/
def goClean (p : String) : String :=
  match p.data with
  | [] => "."
  | c :: cs =>
    let rooted := c == '/'
    let out := (cleanStack rooted (splitSlash (c :: cs))).reverse
    let joined := joinSlash out
    if rooted then String.mk ('/' :: joined)
    else if joined = [] then "."
    else String.mk joined

/-- Model of the two-argument `filepath.Join`: empty elements are skipped and
the concatenation is cleaned. -/
def goJoin2 (a b : String) : String :=
  if a = "" ∧ b = "" then ""
  else if a = "" then goClean b
  else if b = "" then goClean a
  else goClean (a ++ "/" ++ b)

/-- Model of `filepath.Dir`: everything up to and including the final `/`,
cleaned; `.` when there is no separator. -/
def goDir (p : String) : String :=
  goClean (String.mk ((p.data.reverse.dropWhile (fun c => c ≠ '/')).reverse))

/-- Model of `filepath.Base`: the final non-empty path component; `.` for the
empty path and `/` for the root. -/
def goBase (p : String) : String :=
  match p.data with
  | [] => "."
  | c :: cs =>
    let trimmed := (c :: cs).reverse.dropWhile (fun x => x == '/')
    match trimmed with
    | [] => "/"
    | t => String.mk ((t.takeWhile (fun x => x ≠ '/')).reverse)

/-- Model of `filepath.Ext`: the suffix of the last component starting at its
final dot (including the dot), empty when the last component has no dot. -/
def goExt (p : String) : String :=
  let lastComp := (p.data.reverse.takeWhile (fun c => c ≠ '/'))
  let afterDot := lastComp.takeWhile (fun c => c ≠ '.')
  if afterDot.length = lastComp.length then ""
  else String.mk ('.' :: afterDot.reverse)

/-- Path separator appended to the cleaned destination in the zip-slip guard
(`string(os.PathSeparator)` on Unix). -/
def pathSep : String := "/"

/-! ## Filesystem state and the archive extraction of gcp_provider.go -/

/-- Explicit filesystem state: the set of directories created so far and the
files on disk as path/content pairs (latest write first). -/
structure FS where
  dirs : List String
  files : List (String × String)
deriving DecidableEq, Repr

/-- Model of `os.MkdirAll` for the aspects the claims observe: the directory
path becomes existent (parent bookkeeping is not tracked; the repository only
ever stats the exact paths it created). -/
def mkdirAll (fs : FS) (d : String) : FS :=
  if fs.dirs.contains d then fs else { fs with dirs := d :: fs.dirs }

/-- Model of creating/truncating a file (`os.OpenFile` with `O_CREATE|O_TRUNC`
followed by `io.Copy`, or `os.WriteFile`): any previous content at the path is
replaced. -/
def writeFile (fs : FS) (p c : String) : FS :=
  { fs with files := (p, c) :: fs.files.filter (fun pc => pc.1 ≠ p) }

/-- Model of `os.Remove` on a file path. -/
def removeFile (fs : FS) (p : String) : FS :=
  { fs with files := fs.files.filter (fun pc => pc.1 ≠ p) }

/-- Existence test corresponding to a successful `os.Stat`. -/
def pathExists (fs : FS) (p : String) : Bool :=
  fs.dirs.contains p || fs.files.any (fun pc => pc.1 = p)

/-- One entry of a zip archive as `archive/zip` presents it: its name inside
the archive, whether it is a directory, and its byte content. -/
structure ZipEntry where
  name : String
  isDir : Bool
  content : String
deriving DecidableEq, Repr

/-- Loop body of `extractZip` (gcp_provider.go lines 304-342): for each entry
compute `path := filepath.Join(dest, file.Name)`, reject the whole extraction
when `path` does not start with `filepath.Clean(dest)+"/"` (the zip-slip
guard), create directories for directory entries, and otherwise create the
parent directory and write the entry content at `path`. -/
def extractZipGo (dest : String) : FS → List ZipEntry → FS × Option String
  | fs, [] => (fs, none)
  | fs, e :: rest =>
    let path := goJoin2 dest e.name
    if strStartsWith path (goClean dest ++ pathSep) = false then
      (fs, some ("invalid file path: " ++ e.name))
    else if e.isDir then
      extractZipGo dest (mkdirAll fs path) rest
    else
      extractZipGo dest (writeFile (mkdirAll fs (goDir path)) path e.content) rest

/-- Model of `GCPProvider.extractZip`: the archive is given as its entry list
(the reader abstraction of `zip.OpenReader`); returns the filesystem after the
performed writes together with `none` on success or the error message of the
failing entry. -/
def extractZip (fs : FS) (entries : List ZipEntry) (dest : String) : FS × Option String :=
  extractZipGo dest fs entries

/-- An entry is resolved outside the destination exactly when the source's
guard condition fails: the joined path does not lie under `Clean(dest)/`. -/
def entryEscapes (dest : String) (e : ZipEntry) : Bool :=
  !(strStartsWith (goJoin2 dest e.name) (goClean dest ++ pathSep))

/-! ## Log-stream polling (StreamFunctionLogs, gcp_provider.go 480-575)

Timestamps are modelled as integers; `time.Time.After` is `<`. -/

/-- Collection phase of one poll (lines 524-556): iterate the query result in
its delivered order and keep exactly the entries strictly newer than the
high-water mark `hwm` (the skip is `!entry.Timestamp.After(lastTimestamp)`). -/
def pollCollect (hwm : Int) (q : List Int) : List Int :=
  q.filter (fun t => hwm < t)

/-- Emission phase of one poll (lines 558-569): the collected entries are sent
in reverse of the query order (the query is `NewestFirst`, so this is
oldest-first). -/
def pollEmit (hwm : Int) (q : List Int) : List Int :=
  (pollCollect hwm q).reverse

/-- High-water-mark update during emission (lines 562-565): advance to every
emitted timestamp that is newer than the current mark. -/
def advanceHwm (hwm : Int) (emitted : List Int) : Int :=
  emitted.foldl (fun h t => if h < t then t else h) hwm

/-- One tick of the polling loop: the emitted timestamps (oldest-first) and
the high-water mark afterwards. -/
def pollStep (hwm : Int) (q : List Int) : List Int × Int :=
  let em := pollEmit hwm q
  (em, advanceHwm hwm em)

/-- Run of the polling loop over a sequence of query results: for each poll,
record the high-water mark at the time of the poll and the entries emitted by
that poll. -/
def streamRun (hwm : Int) : List (List Int) → List (Int × List Int)
  | [] => []
  | q :: qs =>
    let s := pollStep hwm q
    (hwm, s.1) :: streamRun s.2 qs

/-- All timestamps emitted to the UI over a run, in emission order. -/
def streamEmitted (hwm : Int) (qs : List (List Int)) : List Int :=
  (streamRun hwm qs).flatMap (fun pr => pr.2)

/-! ## Code download and browsing (gcp_provider.go 148-288, part_003 211-361) -/

/-- Where a GCP function's source lives, as reported by the Functions API.
For the Cloud Storage case the archive's content (the zip entries the object
decodes to) is carried along, standing for the bytes the download fetches. -/
inductive SourceLocation where
  | archive (url : String) (entries : List ZipEntry)
  | repo (url : String) (deployedUrl : String)
  | upload (url : String)
  | missing
deriving DecidableEq, Repr

/-- Clone instructions written for a source-repository function
(gcp_provider.go lines 185-202). -/
def cloneInstructions (url deployedUrl projectID : String) : String :=
  "To clone this Cloud Source Repository:\n\nRepository URL: " ++ url ++ "\n"
    ++ (if deployedUrl = "" then "" else "Deployed URL: " ++ deployedUrl ++ "\n")
    ++ "\nCommands to clone:\n1. Install Google Cloud SDK if not already installed\n2. Authenticate: gcloud auth login\n3. Clone: gcloud source repos clone [REPO_NAME] --project="
    ++ projectID

/-- Model of `GCPProvider.downloadFromGCS`: validate the `gs://` URL, create
the destination directory, write the archive bytes to `source.zip`, extract,
and remove the temporary zip on success (it is kept when extraction fails,
as in the source). -/
def downloadFromGCS (fs : FS) (gsURL : String) (entries : List ZipEntry)
    (destination : String) : FS × Option String :=
  if strStartsWith gsURL ("gs://") = false then
    (fs, some ("invalid GCS URL: " ++ gsURL))
  else if goContains (gsURL.drop 5) ("/") = false then
    (fs, some ("invalid GCS URL format: " ++ gsURL))
  else
    let fs1 := mkdirAll fs destination
    let tempFile := goJoin2 destination ("source.zip")
    let fs2 := writeFile fs1 tempFile ("<archive-bytes>")
    let r := extractZip fs2 entries destination
    match r.2 with
    | some e => (r.1, some ("failed to extract ZIP: " ++ e))
    | none => (removeFile r.1 tempFile, none)

/-- Model of `GCPProvider.DownloadFunctionCode`: the function's details are
already fetched (its source location is the `src` argument); the destination
directory is created before the source type is examined, and an unsupported
or missing source type yields an error after that creation. -/
def DownloadFunctionCode (fs : FS) (src : SourceLocation) (projectID name destination : String) :
    FS × Option String :=
  let fs1 := mkdirAll fs destination
  match src with
  | .archive url entries => downloadFromGCS fs1 url entries destination
  | .repo url deployedUrl =>
    (writeFile fs1 (goJoin2 destination ("clone_instructions.txt"))
      (cloneInstructions url deployedUrl projectID), none)
  | .upload _ => (fs1, some ("source upload URL type not supported for direct download"))
  | .missing => (fs1, some ("no downloadable source found for function " ++ name))

/-- Extension allow-list of `isCodeFile` (part_003 lines 320-361). -/
def isCodeFile (ext : String) : Bool :=
  [".js", ".py", ".go", ".java", ".php", ".rb", ".cs", ".cpp", ".c", ".h", ".hpp",
   ".ts", ".jsx", ".tsx", ".html", ".css", ".scss", ".less", ".json", ".yaml", ".yml",
   ".xml", ".md", ".txt", ".sh", ".bat", ".ps1", ".sql", ".r", ".scala", ".kt",
   ".swift", ".dart", ".rs", ".lua", ".pl", ".pm"].contains ext

/-- Per-file section of `readCodeFiles` (part_003 lines 285-303): relative
path header, rule line, and the content truncated at 100 KB. -/
def codeFileSection (relPath content : String) : String :=
  "📄 " ++ relPath ++ "\n"
    ++ "─────────────────────────────────────\n"
    ++ (if content.length > 100 * 1024 then
          "File too large (" ++ toString content.length ++ " bytes). Showing first 100KB...\n\n"
            ++ (String.mk (content.data.take (100 * 1024)))
        else content)
    ++ "\n\n"

/-- Header that `readCodeFiles` writes before walking the directory
(part_003 lines 266-267). -/
def codeFilesHeader (dirPath : String) : String :=
  "📁 Code Files for " ++ goBase dirPath ++ "\n"
    ++ "═══════════════════════════════════════\n\n"

/-- Model of `Model.readCodeFiles`: walk the files under `dirPath`, keep the
ones whose extension is on the allow-list, and concatenate their sections
after the header.  The walk order is the file list's order (the source walks
lexically; no claim depends on the order). -/
def readCodeFiles (fs : FS) (dirPath : String) : String :=
  codeFilesHeader dirPath
    ++ String.join
      ((fs.files.filter
          (fun pc => strStartsWith pc.1 (dirPath ++ pathSep) && isCodeFile (goExt pc.1))).map
        (fun pc => codeFileSection (pc.1.drop (dirPath ++ pathSep).length) pc.2))

/-- Model of the `Model.loadCodeFiles` background command (part_003 243-262):
the precondition error is produced exactly when `os.Stat` on the download
path reports non-existence; otherwise the directory is read. -/
def loadCodeFiles (fs : FS) (functionName : String) : Except String String :=
  let downloadPath := goJoin2 ("downloads") functionName
  if pathExists fs downloadPath = false then
    .error ("code not downloaded yet. Press 'd' first to download the code")
  else
    .ok (readCodeFiles fs downloadPath)

/-- Model of the `Model.downloadFunctionCode` background command (part_003
211-241): create the `downloads` base directory, derive the per-function
destination, and run the provider download; the provider error is wrapped.
`filepath.Abs` is modelled as the identity on the (relative) path. -/
def downloadFunctionCodeCmd (fs : FS) (src : SourceLocation) (projectID name : String) :
    FS × Except String String :=
  let fs1 := mkdirAll fs ("downloads")
  let downloadPath := goJoin2 ("downloads") name
  let r := DownloadFunctionCode fs1 src projectID name downloadPath
  match r.2 with
  | some e => (r.1, .error ("download failed: " ++ e))
  | none => (r.1, .ok downloadPath)

/-- Boolean success test for `Except`. -/
def exceptIsOk : Except String String → Bool
  | .ok _ => true
  | .error _ => false

instance exceptDecidableEq {α β : Type} [DecidableEq α] [DecidableEq β] :
    DecidableEq (Except α β) := fun a b =>
  match a, b with
  | .ok x, .ok y =>
    if h : x = y then isTrue (by rw [h]) else
      isFalse (fun hc => h (by injection hc))
  | .error x, .error y =>
    if h : x = y then isTrue (by rw [h]) else
      isFalse (fun hc => h (by injection hc))
  | .ok _, .error _ => isFalse (fun hc => Except.noConfusion hc)
  | .error _, .ok _ => isFalse (fun hc => Except.noConfusion hc)

/-! ## Provider data types (internal/provider/provider.go) -/

/-- Model of `provider.FunctionInfo` (provider.go 54-66); the environment map
is a key/value list. -/
structure FunctionInfo where
  Name : String
  Runtime : String
  Memory : Int
  Timeout : Int
  Handler : String
  LastModified : String
  ARN : String
  Description : String
  Role : String
  Environment : List (String × String)
  Region : String
deriving DecidableEq, Repr

/-- Model of `provider.LogEntry` (provider.go 9-14); timestamps are integers
and `time.Time.After` is `<`. -/
structure LogEntry where
  Timestamp : Int
  Severity : String
  Message : String
  Labels : List (String × String)
deriving DecidableEq, Repr

/-! ## UI state machine (internal/ui, part_003) -/

/-- Model of `ui.ViewType` (views.go). -/
inductive ViewType where
  | ListView | DetailView | LogsView | CodeView | CodeDisplayView | MetricsView
deriving DecidableEq, Repr

/-- Model of `ui.InputMode` (part_003 24-30). -/
inductive InputMode where
  | NormalMode | FilterMode | CommandMode
deriving DecidableEq, Repr

/-- The slice of the bubbles `table.Model` state the program observes: the
column definitions (title and width), the rows, the cursor and the height. -/
structure TableModel where
  columns : List (String × Int)
  rows : List (List String)
  cursor : Nat
  height : Int
deriving DecidableEq, Repr

/-- The slice of the bubbles `viewport.Model` state the program observes. -/
structure ViewportModel where
  width : Int
  height : Int
  content : String
deriving DecidableEq, Repr

/-- The slice of the bubbles `textinput.Model` state the program observes. -/
structure TextInputModel where
  placeholder : String
  value : String
  focused : Bool
deriving DecidableEq, Repr

/-- The slice of the bubbles `textarea.Model` state the program observes. -/
structure TextareaModel where
  width : Int
  height : Int
  value : String
  focused : Bool
deriving DecidableEq, Repr

/-- Model of `ui.Model` (part_003 33-59), field for field.  `streamCancel`
models the held `context.CancelFunc`: `some s` is a non-nil cancel function
for the polling context of streaming session `s`, `none` is nil.
`sessionCtr` is ghost state counting `logStreamStartedMsg` events so that a
stream result can be said to belong to a session; no handler reads it. -/
structure Model where
  table : TableModel
  viewport : ViewportModel
  textInput : TextInputModel
  textarea : TextareaModel
  functions : List FunctionInfo
  allFunctions : List FunctionInfo
  accountID : String
  currentView : ViewType
  selectedFunc : Option FunctionInfo
  environment : String
  inputMode : InputMode
  editMode : Bool
  originalContent : String
  filterActive : Bool
  activeFilter : String
  width : Int
  height : Int
  loading : Bool
  err : Option String
  streamingLogs : Bool
  streamCancel : Option Nat
  realTimeLogs : List String
  logStreamErr : Option String
  sessionCtr : Nat
deriving DecidableEq, Repr

/-- Normalized keyboard events (`tea.KeyMsg`), restricted to the keys the
update function distinguishes. -/
inductive Key where
  | ctrlC | ctrlS | enter | esc
  | char (c : Char)
deriving DecidableEq, Repr

/-- Commands the state machine hands to the bubbletea runtime.  `streamLogsCmd`
carries the ghost session number of the context it listens on. -/
inductive Cmd where
  | quit
  | fetchFunctions
  | fetchAccountID
  | fetchLogs (name : String)
  | fetchCode (name : String)
  | fetchMetrics (name : String)
  | startStream (name : String)
  | streamLogsCmd (session : Nat) (name : String)
  | downloadNotice (name : String)
  | downloadCode (name : String)
  | loadFilesNotice (name : String)
  | loadFiles (name : String)
  | emitEditSaved
  | blink
deriving DecidableEq, Repr

/-- Inbound messages (the `tea.Msg` values handled by `Model.Update`).
`newLogEntry` and `logStreamError` carry the ghost session number of the
`streamLogs` command that produced them; the Go message types carry no such
tag and the handlers never read it. -/
inductive Msg where
  | windowSize (w h : Int)
  | accountIDLoaded (accountID : String) (err : Option String)
  | functionsLoaded (functions : List FunctionInfo) (err : Option String)
  | functionLogsLoaded (logs : List String) (err : Option String)
  | functionMetricsLoaded (functionName : String) (err : Option String)
  | logStreamStarted (functionName : String)
  | newLogEntry (session : Nat) (entry : LogEntry)
  | logStreamError (session : Nat) (err : String)
  | functionCodeLoaded (code : String) (err : Option String)
  | downloading (functionName : String)
  | functionCodeDownloaded (path : String) (err : Option String)
  | loadingCodeFiles (functionName : String)
  | codeFilesLoaded (content : String) (err : Option String)
  | editSaved (success : Bool) (err : Option String)
  | key (k : Key)
deriving DecidableEq, Repr

/-- Display formatting of a log timestamp (the source formats
`"2006-01-02 15:04:05"`; the model prints the integer). -/
def formatTimestamp (t : Int) : String := toString t

/-- Log line built for an incoming stream entry (part_003 488-489). -/
def formatLogLine (e : LogEntry) : String :=
  "[" ++ formatTimestamp e.Timestamp ++ "] " ++ e.Severity ++ ": " ++ e.Message

/-- Plain-text core of `formatFunctionDetails` (render.go 210-262); the
lipgloss styling is display-only and dropped. -/
def formatFunctionDetails (fn : FunctionInfo) : String :=
  "━━━ Function Details ━━━\n\n"
    ++ "Name: " ++ fn.Name ++ "\n\n"
    ++ (if fn.ARN = "" then "" else "ARN/Resource: " ++ fn.ARN ++ "\n\n")
    ++ "Runtime: " ++ fn.Runtime ++ "\n\n"
    ++ (if fn.Handler = "" then "" else "Handler: " ++ fn.Handler ++ "\n\n")
    ++ "Memory: " ++ toString fn.Memory ++ " MB\n\n"
    ++ "Timeout: " ++ toString fn.Timeout ++ " seconds\n\n"
    ++ (if fn.Region = "" then "" else "Region/Location: " ++ fn.Region ++ "\n\n")
    ++ (if fn.Description = "" then "" else "Description: " ++ fn.Description ++ "\n\n")
    ++ (if fn.Role = "" then "" else "Role: " ++ fn.Role ++ "\n\n")
    ++ (if fn.LastModified = "" then "" else "Last Modified: " ++ fn.LastModified ++ "\n\n")

/-- Abbreviated metrics pane text (part_003 986-999; chart rendering is
outside the specified core). -/
def renderMetricsContent (functionName : String) (width : Int) : String :=
  "DEBUG: Function: " ++ functionName ++ "\nWidth: " ++ toString width ++ "\n\n"

/-- Model of `Model.updateTable` (part_003 642-654): rebuild the table rows
from the current (filtered) function list. -/
def updateTable (m : Model) : Model :=
  { m with table := { m.table with
      rows := m.functions.map (fun fn =>
        [fn.Name, fn.Runtime, toString fn.Memory ++ " MB", toString fn.Timeout ++ " s",
         fn.LastModified]) } }

/-- Pure core of `Model.filterFunctions` (part_003 656-673): lower-case the
trimmed input; an empty effective filter restores the unfiltered list, any
other keeps the functions whose name, runtime or description contains it. -/
def filterFunctionsList (allFunctions : List FunctionInfo) (input : String) :
    List FunctionInfo :=
  let filterText := goToLower (goTrimSpace input)
  if filterText = "" then allFunctions
  else
    allFunctions.filter (fun fn =>
      goContains (goToLower fn.Name) filterText
        || goContains (goToLower fn.Runtime) filterText
        || goContains (goToLower fn.Description) filterText)

/-- Model of the `Model.filterFunctions` method: recompute the filtered list
from the unfiltered one and the text-input value, then refresh the table. -/
def applyFilterFunctions (m : Model) : Model :=
  updateTable { m with functions := filterFunctionsList m.allFunctions m.textInput.value }

/-- Model of `Model.handleWindowSize` (part_003 592-624).  The Go code sizes
columns with `int(float64(totalWidth) * fraction)`; the model uses the exact
scaled integer division truncated toward zero.  Only layout fields change. -/
def handleWindowSize (m : Model) (w h : Int) : Model × List Cmd :=
  let availableHeight0 := h - 22
  let availableHeight := if availableHeight0 < 5 then 5 else availableHeight0
  let totalWidth := w - 4
  ({ m with
      width := w
      height := h
      table := { m.table with
        height := availableHeight
        columns :=
          [("Function Name", Int.tdiv (totalWidth * 35) 100),
           ("Runtime", Int.tdiv (totalWidth * 15) 100),
           ("Memory", Int.tdiv (totalWidth * 12) 100),
           ("Timeout", Int.tdiv (totalWidth * 12) 100),
           ("Last Modified", Int.tdiv (totalWidth * 26) 100)] }
      viewport := { m.viewport with width := w - 4, height := h - 8 }
      textarea := { m.textarea with width := w - 4, height := h - 10 } }, [])

/-- Model of `Model.handleFunctionsLoaded` (part_003 626-639): loading ends;
an error is recorded; otherwise both lists are replaced wholesale and the
table rebuilt.  No other field is touched. -/
def handleFunctionsLoaded (m : Model) (functions : List FunctionInfo)
    (err : Option String) : Model × List Cmd :=
  match err with
  | some e => ({ m with loading := false, err := some e }, [])
  | none =>
    (updateTable { m with loading := false, allFunctions := functions, functions := functions },
     [])

/-- Navigation behaviour of the bubbles table for keys the program does not
intercept (cursor movement, clamped to the rows). -/
def tableUpdate (t : TableModel) (k : Key) : TableModel :=
  match k with
  | .char 'j' => { t with cursor := min (t.cursor + 1) (t.rows.length - 1) }
  | .char 'k' => { t with cursor := t.cursor - 1 }
  | _ => t

/-- Character insertion behaviour of the bubbles text input for keys the
program does not intercept. -/
def textInputUpdate (ti : TextInputModel) (k : Key) : TextInputModel :=
  match k with
  | .char c => { ti with value := ti.value.push c }
  | _ => ti

/-- Character insertion behaviour of the bubbles textarea for keys the
program does not intercept. -/
def textareaUpdate (ta : TextareaModel) (k : Key) : TextareaModel :=
  match k with
  | .char c => { ta with value := ta.value.push c }
  | _ => ta

/-- Model of `Model.executeCommand` (part_003 967-978): the closed command
vocabulary; anything unrecognized is ignored. -/
def executeCommand (m : Model) (command : String) : Model × List Cmd :=
  if command = ":q" ∨ command = ":quit" then (m, [.quit])
  else if command = ":r" ∨ command = ":refresh" then
    ({ m with loading := true }, [.fetchFunctions])
  else (m, [])

/-- Model of `Model.handleInputMode` (part_003 911-964): escape leaves the
input mode (resetting the filter when it was the filter mode), enter commits
the filter or executes the command, ctrl+c quits, and any other key goes to
the text input, re-filtering live while in filter mode. -/
def handleInputMode (m : Model) (k : Key) : Model × List Cmd :=
  match k with
  | .esc =>
    let currentMode := m.inputMode
    let m1 := { m with inputMode := .NormalMode,
                       textInput := { m.textInput with focused := false } }
    if currentMode = .FilterMode then
      (updateTable { m1 with filterActive := false, activeFilter := "",
                             functions := m1.allFunctions }, [])
    else (m1, [])
  | .enter =>
    if m.inputMode = .FilterMode then
      let filterText := goTrimSpace m.textInput.value
      let m1 :=
        if filterText = "" then { m with filterActive := false, activeFilter := "" }
        else { m with filterActive := true, activeFilter := filterText }
      ({ m1 with inputMode := .NormalMode,
                 textInput := { m1.textInput with focused := false } }, [])
    else if m.inputMode = .CommandMode then
      let command := goTrimSpace m.textInput.value
      executeCommand
        { m with inputMode := .NormalMode,
                 textInput := { m.textInput with focused := false } }
        command
    else
      let m1 := { m with textInput := textInputUpdate m.textInput k }
      (if m1.inputMode = .FilterMode then applyFilterFunctions m1 else m1, [])
  | .ctrlC => (m, [.quit])
  | _ =>
    let m1 := { m with textInput := textInputUpdate m.textInput k }
    (if m1.inputMode = .FilterMode then applyFilterFunctions m1 else m1, [])

/-- Fall-through routing at the bottom of `handleKeyPress` (part_003
898-907): unhandled keys go to the table in the list view, to the textarea in
code-edit mode, and to the viewport otherwise. -/
def keyFallthrough (m : Model) (k : Key) : Model × List Cmd :=
  if m.currentView = .ListView then
    ({ m with table := tableUpdate m.table k }, [])
  else if m.currentView = .CodeView ∧ m.editMode then
    ({ m with textarea := textareaUpdate m.textarea k }, [])
  else (m, [])

/-- Model of `Model.handleKeyPress` (part_003 676-908). -/
def handleKeyPress (m : Model) (k : Key) : Model × List Cmd :=
  if m.inputMode = .FilterMode ∨ m.inputMode = .CommandMode then handleInputMode m k
  else
    match k with
    | .ctrlC => (m, [.quit])
    | .char 'q' =>
      if m.currentView = .ListView then (m, [.quit]) else (m, [])
    | .char '\\' =>
      if m.currentView = .ListView then
        ({ m with inputMode := .FilterMode,
                  textInput := { m.textInput with
                    placeholder := "Filter functions...", value := "", focused := true } },
         [.blink])
      else (m, [])
    | .char ':' =>
      ({ m with inputMode := .CommandMode,
                textInput := { m.textInput with
                  placeholder := "Enter command (:q to quit)...", value := ":",
                  focused := true } },
       [.blink])
    | .enter =>
      if m.currentView = .ListView ∧ m.functions ≠ [] then
        match m.functions.get? m.table.cursor with
        | some fn =>
          ({ m with selectedFunc := some fn, currentView := .DetailView,
                    viewport := { m.viewport with content := formatFunctionDetails fn } }, [])
        | none => (m, [])
      else (m, [])
    | .esc =>
      let m1 :=
        if m.currentView = .LogsView ∧ m.streamingLogs then
          { m with streamCancel := none, streamingLogs := false }
        else m
      if m1.currentView = .CodeDisplayView then
        ({ m1 with currentView := .CodeView }, [])
      else if m1.currentView ≠ .ListView then
        ({ m1 with currentView := .ListView }, [])
      else if m1.filterActive then
        (updateTable { m1 with filterActive := false, activeFilter := "",
                               functions := m1.allFunctions }, [])
      else (m1, [])
    | .char 'l' =>
      if m.currentView = .ListView ∧ m.functions ≠ [] then
        match m.functions.get? m.table.cursor with
        | some fn =>
          ({ m with selectedFunc := some fn, currentView := .LogsView,
                    viewport := { m.viewport with content := "Loading logs..." } },
           [.fetchLogs fn.Name])
        | none => (m, [])
      else if m.currentView = .LogsView ∧ m.selectedFunc.isSome then
        let m1 :=
          if m.streamingLogs ∧ m.streamCancel.isSome then
            { m with streamingLogs := false, streamCancel := none }
          else m
        ({ m1 with viewport := { m1.viewport with content := "Loading logs..." } },
         [.fetchLogs ((m1.selectedFunc.map (fun f => f.Name)).getD "")])
      else (m, [])
    | .char 's' =>
      if m.currentView = .LogsView ∧ m.selectedFunc.isSome then
        if m.streamingLogs then
          let logs := m.realTimeLogs ++ ["⏹️  Log streaming stopped"]
          ({ m with streamCancel := none, streamingLogs := false,
                    realTimeLogs := logs,
                    viewport := { m.viewport with
                      content := String.intercalate "\n" logs } }, [])
        else
          (m, [.startStream ((m.selectedFunc.map (fun f => f.Name)).getD "")])
      else (m, [])
    | .char 'c' =>
      if m.currentView = .ListView ∧ m.functions ≠ [] then
        match m.functions.get? m.table.cursor with
        | some fn =>
          ({ m with selectedFunc := some fn, currentView := .CodeView,
                    viewport := { m.viewport with content := "Loading code..." } },
           [.fetchCode fn.Name])
        | none => (m, [])
      else (m, [])
    | .char 'm' =>
      if m.currentView = .ListView ∧ m.functions ≠ [] then
        match m.functions.get? m.table.cursor with
        | some fn =>
          ({ m with selectedFunc := some fn, currentView := .MetricsView,
                    viewport := { m.viewport with content := "Loading metrics..." } },
           [.fetchMetrics fn.Name])
        | none => (m, [])
      else if m.currentView = .MetricsView ∧ m.selectedFunc.isSome then
        ({ m with viewport := { m.viewport with content := "Refreshing metrics..." } },
         [.fetchMetrics ((m.selectedFunc.map (fun f => f.Name)).getD "")])
      else (m, [])
    | .char 'w' =>
      if m.currentView = .ListView ∧ m.functions ≠ [] then
        match m.functions.get? m.table.cursor with
        | some fn =>
          ({ m with viewport := { m.viewport with
              content := "Downloading code for " ++ fn.Name ++ "..." } },
           [.downloadNotice fn.Name, .downloadCode fn.Name])
        | none => (m, [])
      else (m, [])
    | .char 'v' =>
      if m.currentView = .CodeView ∧ m.selectedFunc.isSome then
        let name := (m.selectedFunc.map (fun f => f.Name)).getD ""
        ({ m with currentView := .CodeDisplayView,
                  viewport := { m.viewport with
                    content := "Loading code files for " ++ name ++ "..." } },
         [.loadFilesNotice name, .loadFiles name])
      else (m, [])
    | .char 'e' =>
      if m.currentView = .CodeView ∧ m.selectedFunc.isSome then
        if !m.editMode then
          ({ m with editMode := true,
                    originalContent := m.viewport.content,
                    textarea := { m.textarea with
                      value := m.viewport.content, width := m.width - 4,
                      height := m.height - 10, focused := true } }, [])
        else
          ({ m with editMode := false,
                    viewport := { m.viewport with content := m.originalContent },
                    textarea := { m.textarea with focused := false } }, [])
      else (m, [])
    | .ctrlS =>
      if m.currentView = .CodeView ∧ m.editMode ∧ m.selectedFunc.isSome then
        ({ m with viewport := { m.viewport with content := m.textarea.value },
                  editMode := false,
                  textarea := { m.textarea with focused := false } },
         [.emitEditSaved])
      else (m, [])
    | .char 'r' =>
      if m.currentView = .ListView then
        ({ m with loading := true }, [.fetchFunctions])
      else (m, [])
    | _ => keyFallthrough m k

/-- Model of `Model.Update` (part_003 439-590). -/
def update (m : Model) : Msg → Model × List Cmd
  | .windowSize w h => handleWindowSize m w h
  | .accountIDLoaded accountID err =>
    (if err = none then { m with accountID := accountID } else m, [])
  | .functionsLoaded functions err => handleFunctionsLoaded m functions err
  | .functionLogsLoaded logs err =>
    ({ m with viewport := { m.viewport with content :=
        match err with
        | some e => "Error: " ++ e
        | none => String.intercalate "\n" logs } }, [])
  | .functionMetricsLoaded functionName err =>
    ({ m with viewport := { m.viewport with content :=
        match err with
        | some e => "Error loading metrics: " ++ e
        | none => renderMetricsContent functionName m.width } }, [])
  | .logStreamStarted functionName =>
    let logs := ["🔴 Streaming logs for " ++ functionName ++ " (real-time) - Press 's' to stop"]
    let newSession := m.sessionCtr + 1
    ({ m with streamingLogs := true, realTimeLogs := logs, logStreamErr := none,
              streamCancel := some newSession, sessionCtr := newSession,
              viewport := { m.viewport with content := String.intercalate "\n" logs } },
     [.streamLogsCmd newSession functionName])
  | .newLogEntry _ entry =>
    if m.streamingLogs then
      let logLine := formatLogLine entry
      let logs0 := m.realTimeLogs ++ [logLine]
      let logs := if logs0.length > 1000 then logs0.tail else logs0
      ({ m with realTimeLogs := logs,
                streamCancel := some m.sessionCtr,
                viewport := { m.viewport with content := String.intercalate "\n" logs } },
       [.streamLogsCmd m.sessionCtr ((m.selectedFunc.map (fun f => f.Name)).getD "")])
    else (m, [])
  | .logStreamError _ err =>
    if m.streamingLogs then
      let logs := m.realTimeLogs ++ ["❌ Stream error: " ++ err]
      ({ m with logStreamErr := some err, streamingLogs := false, streamCancel := none,
                realTimeLogs := logs,
                viewport := { m.viewport with content := String.intercalate "\n" logs } }, [])
    else (m, [])
  | .functionCodeLoaded code err =>
    ({ m with viewport := { m.viewport with content :=
        match err with
        | some e => "Error: " ++ e
        | none => code } }, [])
  | .downloading functionName =>
    ({ m with viewport := { m.viewport with content :=
        "Downloading code for " ++ functionName ++ "...\n\nThis may take a few moments." } },
     [])
  | .functionCodeDownloaded path err =>
    ({ m with viewport := { m.viewport with content :=
        match err with
        | some e => "Download failed: " ++ e ++ "\n\nPress 'esc' to go back."
        | none =>
          "✅ Code downloaded successfully!\n\nLocation: " ++ path ++ "\n\n"
            ++ "The function code has been downloaded to your local machine.\n"
            ++ "You can now explore the source files in the specified directory.\n\n"
            ++ "Press 'esc' to go back to the function list." } }, [])
  | .loadingCodeFiles functionName =>
    ({ m with viewport := { m.viewport with content :=
        "Loading code files for " ++ functionName ++ "...\n\nReading downloaded files..." } },
     [])
  | .codeFilesLoaded content err =>
    ({ m with viewport := { m.viewport with content :=
        match err with
        | some e => "Error loading code files: " ++ e ++ "\n\nPress 'esc' to go back."
        | none => content } }, [])
  | .editSaved success err =>
    if success then
      ({ m with viewport := { m.viewport with
          content := "✅ Changes saved!\n\n" ++ m.viewport.content } }, [])
    else
      match err with
      | some e =>
        ({ m with viewport := { m.viewport with
            content := "❌ Save failed: " ++ e ++ "\n\nPress 'esc' to go back." } }, [])
      | none => (m, [])
  | .key k => handleKeyPress m k

/-- Model of `ui.NewModel` (part_003 364-422), dropping the provider handle
and the pure styling. -/
def NewModel (environment : String) : Model :=
  { table := { columns := [("Function Name", 40), ("Runtime", 15), ("Memory", 10),
                           ("Timeout", 10), ("Last Modified", 20)],
               rows := [], cursor := 0, height := 20 }
    viewport := { width := 80, height := 20, content := "" }
    textInput := { placeholder := "Filter functions...", value := "", focused := false }
    textarea := { width := 80, height := 20, value := "", focused := false }
    functions := []
    allFunctions := []
    accountID := ""
    currentView := .ListView
    selectedFunc := none
    environment := environment
    inputMode := .NormalMode
    editMode := false
    originalContent := ""
    filterActive := false
    activeFilter := ""
    width := 0
    height := 0
    loading := true
    err := none
    streamingLogs := false
    streamCancel := none
    realTimeLogs := []
    logStreamErr := none
    sessionCtr := 0 }

/-! ## Spec-side filter definition (for the refinement comparison of the
filtering claim) -/

/-- Filter predicate written from the claim's words, applied to a filter
string `f` taken verbatim: a function matches when its name, runtime or
description contains `f` case-insensitively. -/
def claimMatches (f : String) (fn : FunctionInfo) : Bool :=
  goContains (goToLower fn.Name) (goToLower f)
    || goContains (goToLower fn.Runtime) (goToLower f)
    || goContains (goToLower fn.Description) (goToLower f)

/-- The filtered list as the claim states it: the sublist of the registry
matching the filter string verbatim, the empty string yielding the whole
registry. -/
def specFilteredList (registry : List FunctionInfo) (f : String) : List FunctionInfo :=
  if f = "" then registry else registry.filter (claimMatches f)

/-- The filtered list as the claim holds after amendment: the filter string
is first trimmed of surrounding white space, and a filter that trims to the
empty string yields the whole registry. -/
def specTrimmedFilteredList (registry : List FunctionInfo) (f : String) :
    List FunctionInfo :=
  if goTrimSpace f = "" then registry
  else registry.filter (claimMatches (goTrimSpace f))

/-! ## Concrete fixtures used by counterexamples and witnesses -/

/-- Sample function used across concrete scenarios. -/
def fnA : FunctionInfo :=
  { Name := "fn-a", Runtime := "go121", Memory := 256, Timeout := 60, Handler := "main",
    LastModified := "2024-01-01", ARN := "arn:a", Description := "alpha", Role := "role",
    Environment := [], Region := "us-central1" }

/-- Second sample function (present only after the refresh in the stale-view
scenario). -/
def fnB : FunctionInfo := { fnA with Name := "fn-b", Description := "beta" }

/-- Function whose name contains `a` but not `" a "`; separates the verbatim
filter string from its trimmed form. -/
def fnAB : FunctionInfo :=
  { fnA with Name := "ab", Runtime := "go121", Description := "x" }

/-- Late log entry delivered by a superseded streaming session. -/
def lateEntry : LogEntry :=
  { Timestamp := 10, Severity := "INFO", Message := "late", Labels := [] }

/-- Logs view with `fn-a` selected and no active stream: the state from which
the streaming scenarios run. -/
def mLogs0 : Model :=
  { NewModel ("dev") with
      functions := [fnA]
      allFunctions := [fnA]
      currentView := .LogsView
      selectedFunc := some fnA
      loading := false }

/-- After the first stream session starts. -/
def mS1 : Model := (update mLogs0 (.logStreamStarted ("fn-a"))).1

/-- After the user stops the first session with `s` (its context is
cancelled). -/
def mS2 : Model := (update mS1 (.key (.char 's'))).1

/-- After a second stream session starts: session 2 is the only current
session, session 1 is superseded. -/
def mS3 : Model := (update mS2 (.logStreamStarted ("fn-a"))).1

/-- Detail view open on `fn-a` while a refresh is in flight. -/
def mD0 : Model :=
  { NewModel ("dev") with
      functions := [fnA]
      allFunctions := [fnA]
      currentView := .DetailView
      selectedFunc := some fnA
      loading := true }

/-- State after the refresh completes with a registry that no longer contains
`fn-a`. -/
def mD1 : Model := (update mD0 (.functionsLoaded [fnB] none)).1

/-- Streaming state whose real-time buffer already holds 1000 entries. -/
def mB0 : Model :=
  { mLogs0 with
      streamingLogs := true
      streamCancel := some 1
      sessionCtr := 1
      realTimeLogs := List.replicate 1000 ("x") }

/-- Streaming state with a short buffer (witness input for the bound
property). -/
def mBsmall : Model :=
  { mLogs0 with
      streamingLogs := true
      streamCancel := some 1
      sessionCtr := 1
      realTimeLogs := ["one line"] }

/-- Empty filesystem. -/
def fs0 : FS := { dirs := [], files := [] }

/-- Zip entry whose resolved path escapes the destination directory. -/
def evilZipEntry : ZipEntry := { name := "../evil", isDir := false, content := "pwn" }

/-- Download of `fn-b`, whose source location type is unsupported, starting
from an empty filesystem. -/
def dlFnB : FS × Except String String :=
  downloadFunctionCodeCmd fs0 (.upload ("https://upload.example")) ("proj") ("fn-b")

/-! ## Theorems -/

/-! ### Archive extraction (claim C1) -/

theorem mkdirAll_files (fs : FS) (d : String) : (mkdirAll fs d).files = fs.files := by
  unfold mkdirAll
  split <;> rfl

theorem mkdirAll_contains_self (fs : FS) (d : String) :
    (mkdirAll fs d).dirs.contains d = true := by
  unfold mkdirAll
  split
  · assumption
  · simp [List.contains_cons]

theorem writeFile_mem (fs : FS) (p0 c0 p c : String)
    (h : (p, c) ∈ (writeFile fs p0 c0).files) :
    (p, c) = (p0, c0) ∨ (p, c) ∈ fs.files := by
  unfold writeFile at h
  simp only [List.mem_cons, List.mem_filter] at h
  rcases h with h | ⟨h, _⟩
  · exact Or.inl h
  · exact Or.inr h

theorem extractZipGo_files (dest : String) (es : List ZipEntry) (fs : FS) (p c : String)
    (h : (p, c) ∈ (extractZipGo dest fs es).1.files) :
    (p, c) ∈ fs.files ∨ strStartsWith p (goClean dest ++ pathSep) = true := by
  induction es generalizing fs with
  | nil => exact Or.inl h
  | cons e rest ih =>
    rw [extractZipGo] at h
    by_cases hg : strStartsWith (goJoin2 dest e.name) (goClean dest ++ pathSep) = false
    · rw [if_pos hg] at h
      exact Or.inl h
    · rw [if_neg hg] at h
      by_cases hd : e.isDir
      · rw [if_pos hd] at h
        rcases ih _ h with h1 | h1
        · rw [mkdirAll_files] at h1
          exact Or.inl h1
        · exact Or.inr h1
      · rw [if_neg hd] at h
        rcases ih _ h with h1 | h1
        · rcases writeFile_mem _ _ _ _ _ h1 with h2 | h2
          · right
            rw [Prod.mk.injEq] at h2
            rw [h2.1]
            exact eq_true_of_ne_false hg
          · rw [mkdirAll_files] at h2
            exact Or.inl h2
        · exact Or.inr h1

theorem extractZipGo_err (dest : String) (es : List ZipEntry) (fs : FS)
    (h : ∃ e ∈ es, entryEscapes dest e = true) :
    (extractZipGo dest fs es).2.isSome = true := by
  induction es generalizing fs with
  | nil => simp at h
  | cons e rest ih =>
    rw [extractZipGo]
    by_cases hg : strStartsWith (goJoin2 dest e.name) (goClean dest ++ pathSep) = false
    · rw [if_pos hg]
      rfl
    · rw [if_neg hg]
      have hrest : ∃ x ∈ rest, entryEscapes dest x = true := by
        rcases h with ⟨x, hx, hesc⟩
        rcases List.mem_cons.mp hx with rfl | hx
        · exfalso
          apply hg
          unfold entryEscapes at hesc
          exact Bool.not_eq_true' .. ▸ hesc
        · exact ⟨x, hx, hesc⟩
      by_cases hd : e.isDir
      · rw [if_pos hd]
        exact ih _ hrest
      · rw [if_neg hd]
        exact ih _ hrest

/-- Claim C1: for every zip archive and destination directory, if any archive
entry's resolved extraction path (the destination joined with the entry name)
falls outside the destination directory — formalized as the failure of the
source's containment test under `Clean(dest) + "/"` — then `extractZip`
returns an error for the whole operation, and no file content for any such
offending entry is written to disk past the guard check (every file the run
writes lies under the destination, so the offending entry's resolved path can
only hold content it already had before the run). -/
theorem extractZip_rejects_escaping_entries (dest : String) (entries : List ZipEntry)
    (fs : FS) (hbad : ∃ e ∈ entries, entryEscapes dest e = true) :
    (extractZip fs entries dest).2.isSome = true ∧
    ∀ e ∈ entries, entryEscapes dest e = true → ∀ c,
      (goJoin2 dest e.name, c) ∈ (extractZip fs entries dest).1.files →
      (goJoin2 dest e.name, c) ∈ fs.files := by
  constructor
  · exact extractZipGo_err dest entries fs hbad
  · intro e _ hesc c hmem
    rcases extractZipGo_files dest entries fs _ _ hmem with h1 | h1
    · exact h1
    · exfalso
      unfold entryEscapes at hesc
      rw [Bool.not_eq_true'] at hesc
      rw [hesc] at h1
      exact Bool.false_ne_true h1

/-- Witness for claim C1: concrete archive holding the entry `../evil`
against destination `downloads/fn-b`, starting from the empty filesystem. -/
theorem extractZip_rejects_escaping_entries_witness :
    (∃ e ∈ [evilZipEntry], entryEscapes ("downloads/fn-b") e = true) ∧
    ((extractZip fs0 [evilZipEntry] ("downloads/fn-b")).2.isSome = true ∧
     ∀ e ∈ [evilZipEntry], entryEscapes ("downloads/fn-b") e = true → ∀ c,
       (goJoin2 ("downloads/fn-b") e.name, c)
           ∈ (extractZip fs0 [evilZipEntry] ("downloads/fn-b")).1.files →
       (goJoin2 ("downloads/fn-b") e.name, c) ∈ fs0.files) :=
  ⟨by decide, extractZip_rejects_escaping_entries ("downloads/fn-b") [evilZipEntry] fs0
    (by decide)⟩

/-! ### Stream polling (claim C3) -/

theorem mem_pollEmit (hwm : Int) (q : List Int) (t : Int) (h : t ∈ pollEmit hwm q) :
    hwm < t := by
  simp only [pollEmit, pollCollect, List.mem_reverse, List.mem_filter] at h
  simpa using h.2

theorem pairwise_pollEmit (hwm : Int) (q : List Int)
    (hq : List.Pairwise (fun a b => b ≤ a) q) :
    List.Pairwise (fun a b => a ≤ b) (pollEmit hwm q) := by
  unfold pollEmit pollCollect
  rw [List.pairwise_reverse]
  exact hq.filter _

theorem advanceHwm_cons (h a : Int) (em : List Int) :
    advanceHwm h (a :: em) = advanceHwm (if h < a then a else h) em := rfl

theorem le_advanceHwm (em : List Int) : ∀ h : Int, h ≤ advanceHwm h em := by
  induction em with
  | nil =>
    intro h
    simp [advanceHwm]
  | cons a em ih =>
    intro h
    rw [advanceHwm_cons]
    have h1 : h ≤ (if h < a then a else h) := by split <;> omega
    exact le_trans h1 (ih _)

theorem mem_le_advanceHwm (em : List Int) : ∀ h t : Int, t ∈ em → t ≤ advanceHwm h em := by
  induction em with
  | nil =>
    intro h t ht
    simp at ht
  | cons a em ih =>
    intro h t ht
    rw [advanceHwm_cons]
    rcases List.mem_cons.mp ht with rfl | ht
    · have h1 : t ≤ (if h < t then t else h) := by split <;> omega
      exact le_trans h1 (le_advanceHwm _ _)
    · exact ih _ _ ht

theorem streamRun_cons (hwm : Int) (q : List Int) (qs : List (List Int)) :
    streamRun hwm (q :: qs)
      = (hwm, pollEmit hwm q) :: streamRun (advanceHwm hwm (pollEmit hwm q)) qs := rfl

theorem streamEmitted_cons (hwm : Int) (q : List Int) (qs : List (List Int)) :
    streamEmitted hwm (q :: qs)
      = pollEmit hwm q ++ streamEmitted (advanceHwm hwm (pollEmit hwm q)) qs := by
  simp [streamEmitted, streamRun_cons]

theorem streamRun_spec (qs : List (List Int)) : ∀ hwm : Int,
    (∀ q ∈ qs, List.Pairwise (fun a b => b ≤ a) q) →
    List.Pairwise (fun a b => a ≤ b) (streamEmitted hwm qs) ∧
    (∀ t ∈ streamEmitted hwm qs, hwm < t) ∧
    (∀ pr ∈ streamRun hwm qs, ∀ t ∈ pr.2, pr.1 < t) := by
  induction qs with
  | nil =>
    intro hwm _
    refine ⟨?_, ?_, ?_⟩ <;> simp [streamEmitted, streamRun]
  | cons q qs ih =>
    intro hwm hs
    have hq : List.Pairwise (fun a b => b ≤ a) q := hs q (List.mem_cons_self q qs)
    have hqs : ∀ r ∈ qs, List.Pairwise (fun a b => b ≤ a) r :=
      fun r hr => hs r (List.mem_cons_of_mem q hr)
    obtain ⟨ih1, ih2, ih3⟩ := ih (advanceHwm hwm (pollEmit hwm q)) hqs
    refine ⟨?_, ?_, ?_⟩
    · rw [streamEmitted_cons, List.pairwise_append]
      refine ⟨pairwise_pollEmit hwm q hq, ih1, ?_⟩
      intro a ha b hb
      have h1 : a ≤ advanceHwm hwm (pollEmit hwm q) := mem_le_advanceHwm _ _ _ ha
      exact le_of_lt (lt_of_le_of_lt h1 (ih2 b hb))
    · intro t ht
      rw [streamEmitted_cons, List.mem_append] at ht
      rcases ht with ht | ht
      · exact mem_pollEmit hwm q t ht
      · exact lt_of_le_of_lt (le_advanceHwm _ _) (ih2 t ht)
    · intro pr hpr t ht
      rw [streamRun_cons, List.mem_cons] at hpr
      rcases hpr with rfl | hpr
      · exact mem_pollEmit hwm q t ht
      · exact ih3 pr hpr t ht

/-- Claim C3: over any run of the polling loop of `StreamFunctionLogs`, under
the query contract that each poll's result is delivered newest-first (the
source requests `logadmin.NewestFirst()`), every emitted log timestamp is
strictly greater than the session's high-water mark at the time of its poll,
and the full emitted sequence is non-decreasing (each poll emits oldest-first
and the mark advances to the newest emitted timestamp). -/
theorem stream_dedup_and_monotone (hwm : Int) (qs : List (List Int))
    (hsorted : ∀ q ∈ qs, List.Pairwise (fun a b => b ≤ a) q) :
    List.Pairwise (fun a b => a ≤ b) (streamEmitted hwm qs) ∧
    ∀ pr ∈ streamRun hwm qs, ∀ t ∈ pr.2, pr.1 < t :=
  ⟨(streamRun_spec qs hwm hsorted).1, (streamRun_spec qs hwm hsorted).2.2⟩

/-- Witness for claim C3: two concrete polls, each newest-first. -/
theorem stream_dedup_and_monotone_witness :
    (∀ q ∈ [[3, 2, 1], [5, 4]], List.Pairwise (fun a b : Int => b ≤ a) q) ∧
    (List.Pairwise (fun a b => a ≤ b) (streamEmitted 0 [[3, 2, 1], [5, 4]]) ∧
     ∀ pr ∈ streamRun 0 [[3, 2, 1], [5, 4]], ∀ t ∈ pr.2, pr.1 < t) :=
  ⟨by decide, stream_dedup_and_monotone 0 [[3, 2, 1], [5, 4]] (by decide)⟩

/-! ### Filtering (claim C4) -/

theorem goToLower_empty : goToLower "" = "" := rfl

theorem goToLower_eq_empty (s : String) : (goToLower s = "") ↔ (s = "") := by
  constructor
  · intro h
    have hd : s.data.map Char.toLower = ([] : List Char) := by
      have h2 := congrArg String.data h
      simpa [goToLower] using h2
    have hnil : s.data = [] := List.map_eq_nil_iff.mp hd
    cases s with
    | mk data =>
      simp only at hnil
      rw [hnil]
  · intro h
    rw [h]
    rfl

/-- Counterexample for claim C4 as stated: with the filter string `" a "`
(which is not the empty string), `filterFunctions` matches the function named
`ab` because the source trims the filter before matching, while the claim's
verbatim containment test excludes it. -/
theorem filter_verbatim_counterexample :
    filterFunctionsList [fnAB] (" a ") = [fnAB] ∧
    specFilteredList [fnAB] (" a ") = [] ∧
    filterFunctionsList [fnAB] (" a ") ≠ specFilteredList [fnAB] (" a ") := by
  refine ⟨by decide, by decide, by decide⟩

/-- Claim C4, amended: the filtered list is exactly the sublist of the
registry whose name, runtime or description contains the white-space-trimmed
filter string case-insensitively (order preserved, so it is a sublist of the
registry), and a filter that trims to the empty string — in particular the
empty string itself — yields the whole registry unchanged. -/
theorem filterFunctions_trimmed_characterization (registry : List FunctionInfo)
    (f : String) :
    filterFunctionsList registry f = specTrimmedFilteredList registry f ∧
    (filterFunctionsList registry f).Sublist registry ∧
    filterFunctionsList registry "" = registry := by
  have hmain : ∀ g : String,
      filterFunctionsList registry g = specTrimmedFilteredList registry g := by
    intro g
    by_cases ht : goTrimSpace g = ""
    · simp [filterFunctionsList, specTrimmedFilteredList, ht, goToLower_empty]
    · have hlt : ¬(goToLower (goTrimSpace g) = "") := by
        intro hc
        exact ht ((goToLower_eq_empty (goTrimSpace g)).mp hc)
      simp only [filterFunctionsList, specTrimmedFilteredList, claimMatches]
      rw [if_neg hlt, if_neg ht]
      rfl
  refine ⟨hmain f, ?_, ?_⟩
  · rw [hmain f]
    unfold specTrimmedFilteredList
    split
    · exact List.Sublist.refl registry
    · exact List.filter_sublist registry
  · rw [hmain ""]
    rfl

/-! ### Stream session supersession (claim C2) -/

/-- Counterexample for claim C2 as stated: after the trace start session 1 /
stop / start session 2, a late `newLogEntryMsg` produced by the superseded
session 1 (its poll was in flight when its context was cancelled; the
buffered log channel lets the command return an entry instead of the
cancellation) is applied to the real-time log buffer, because the handler
guards only on the `streamingLogs` flag and the message carries no session
identity the dispatcher could filter on. -/
theorem stale_session_result_applied_counterexample :
    mS3.sessionCtr = 2 ∧ mS3.streamingLogs = true ∧ (1 : Nat) ≠ mS3.sessionCtr ∧
    (update mS3 (Msg.newLogEntry 1 lateEntry)).1.realTimeLogs
      = mS3.realTimeLogs ++ [formatLogLine lateEntry] ∧
    (update mS3 (Msg.newLogEntry 1 lateEntry)).1.realTimeLogs ≠ mS3.realTimeLogs := by
  refine ⟨by decide, by decide, by decide, by decide, by decide⟩

/-- Claim C2, amended: stream results are guarded by the `streamingLogs` flag
alone, not by a session identity — whenever streaming is inactive, delivering
a log-entry or stream-error result leaves the model (and in particular the
real-time log buffer) unchanged; and starting a session makes it the sole
current one (the cancel handle and the ghost session counter both move to the
new session).  A late result from a superseded session that arrives while a
later session is streaming is applied to the buffer. -/
theorem stream_results_guarded_by_streaming_flag (m : Model) (name : String)
    (t u : Nat) (e : LogEntry) (errMsg : String) (h : m.streamingLogs = false) :
    update m (Msg.newLogEntry t e) = (m, []) ∧
    update m (Msg.logStreamError u errMsg) = (m, []) ∧
    (update m (Msg.logStreamStarted name)).1.streamingLogs = true ∧
    (update m (Msg.logStreamStarted name)).1.sessionCtr = m.sessionCtr + 1 ∧
    (update m (Msg.logStreamStarted name)).1.streamCancel = some (m.sessionCtr + 1) := by
  refine ⟨?_, ?_, rfl, rfl, rfl⟩ <;> simp only [update, h] <;> simp

/-- Witness for the amended claim C2, at the concrete logs-view state with no
active stream. -/
theorem stream_results_guarded_by_streaming_flag_witness :
    mLogs0.streamingLogs = false ∧
    (update mLogs0 (Msg.newLogEntry 1 lateEntry) = (mLogs0, []) ∧
     update mLogs0 (Msg.logStreamError 1 ("boom")) = (mLogs0, []) ∧
     (update mLogs0 (Msg.logStreamStarted ("fn-a"))).1.streamingLogs = true ∧
     (update mLogs0 (Msg.logStreamStarted ("fn-a"))).1.sessionCtr = mLogs0.sessionCtr + 1 ∧
     (update mLogs0 (Msg.logStreamStarted ("fn-a"))).1.streamCancel
       = some (mLogs0.sessionCtr + 1)) :=
  ⟨rfl, stream_results_guarded_by_streaming_flag mLogs0 ("fn-a") 1 1 lateEntry ("boom") rfl⟩

/-! ### Registry refresh and the selected function (claim C5) -/

/-- Counterexample for claim C5 as stated: a refresh completes while the
Detail view shows `fn-a`, the new registry no longer contains `fn-a`, and the
view stays Detail with the stale selected-function reference intact — it does
not fall back to List. -/
theorem refresh_keeps_detail_view_counterexample :
    mD0.currentView = ViewType.DetailView ∧ mD0.selectedFunc = some fnA ∧
    mD1.functions = [fnB] ∧ fnA ∉ mD1.functions ∧ fnA ∉ mD1.allFunctions ∧
    mD1.currentView = ViewType.DetailView ∧ mD1.currentView ≠ ViewType.ListView ∧
    mD1.selectedFunc = some fnA := by
  refine ⟨by decide, by decide, by decide, by decide, by decide, by decide, by decide,
    by decide⟩

/-- Claim C5, amended: a completed registry refresh replaces both function
lists wholesale and rebuilds the table, but leaves the current view and the
selected-function reference untouched — the selection keeps referencing the
pre-refresh snapshot and no fallback to the List view happens. -/
theorem registry_refresh_keeps_view_and_selection (m : Model) (fns : List FunctionInfo) :
    (update m (Msg.functionsLoaded fns none)).1.currentView = m.currentView ∧
    (update m (Msg.functionsLoaded fns none)).1.selectedFunc = m.selectedFunc ∧
    (update m (Msg.functionsLoaded fns none)).1.inputMode = m.inputMode ∧
    (update m (Msg.functionsLoaded fns none)).1.functions = fns ∧
    (update m (Msg.functionsLoaded fns none)).1.allFunctions = fns ∧
    (update m (Msg.functionsLoaded fns none)).1.loading = false ∧
    (update m (Msg.functionsLoaded fns none)).1.err = m.err ∧
    (update m (Msg.functionsLoaded fns none)).1.streamingLogs = m.streamingLogs ∧
    (update m (Msg.functionsLoaded fns none)).1.realTimeLogs = m.realTimeLogs ∧
    (update m (Msg.functionsLoaded fns none)).2 = [] :=
  ⟨rfl, rfl, rfl, rfl, rfl, rfl, rfl, rfl, rfl, rfl⟩

/-! ### Unsupported source download and file browsing (claim C6) -/

theorem string_append_empty (s : String) : s ++ "" = s := by
  cases s with
  | mk data =>
    show String.mk (data ++ []) = String.mk data
    rw [List.append_nil]

/-- Counterexample for claim C6 as stated: the download of `fn-b` (source
type: upload URL, unsupported) fails with a descriptive error after creating
the empty destination directory, and the subsequent view-files action does
NOT yield the "download first" precondition error — the directory exists, so
it reports an empty file listing instead. -/
theorem unsupported_download_view_files_counterexample :
    dlFnB.2 = Except.error ("download failed: source upload URL type not supported for direct download") ∧
    dlFnB.1.dirs.contains ("downloads/fn-b") = true ∧
    dlFnB.1.files = [] ∧
    loadCodeFiles dlFnB.1 ("fn-b") = Except.ok (codeFilesHeader ("downloads/fn-b")) ∧
    loadCodeFiles dlFnB.1 ("fn-b")
      ≠ Except.error ("code not downloaded yet. Press 'd' first to download the code") := by
  refine ⟨by decide, by decide, by decide, by decide, by decide⟩

/-- Claim C6, amended: for a function whose source location type is
unsupported, the download completes with a descriptive error (not a crash),
the destination directory is still created and holds no code files, and a
subsequent view-files action does not produce the "download first"
precondition error: because the directory now exists, it returns an empty
file listing (header only); the precondition error occurs only when no
download was ever attempted. -/
theorem unsupported_download_then_view_files (fs : FS) (url projectID name : String)
    (hnofiles : ∀ pc ∈ fs.files,
      strStartsWith pc.1 (goJoin2 ("downloads") name ++ pathSep) = false) :
    (downloadFunctionCodeCmd fs (.upload url) projectID name).2
      = Except.error ("download failed: source upload URL type not supported for direct download") ∧
    (downloadFunctionCodeCmd fs (.upload url) projectID name).1.dirs.contains
      (goJoin2 ("downloads") name) = true ∧
    loadCodeFiles (downloadFunctionCodeCmd fs (.upload url) projectID name).1 name
      = Except.ok (codeFilesHeader (goJoin2 ("downloads") name)) := by
  have hfs : (downloadFunctionCodeCmd fs (.upload url) projectID name).1
      = mkdirAll (mkdirAll fs ("downloads")) (goJoin2 ("downloads") name) := rfl
  refine ⟨rfl, ?_, ?_⟩
  · rw [hfs]
    exact mkdirAll_contains_self _ _
  · rw [hfs]
    have hex : pathExists (mkdirAll (mkdirAll fs ("downloads")) (goJoin2 ("downloads") name))
        (goJoin2 ("downloads") name) = true := by
      unfold pathExists
      rw [mkdirAll_contains_self]
      rfl
    unfold loadCodeFiles
    rw [if_neg (by simp [hex])]
    unfold readCodeFiles
    have hfiles : (mkdirAll (mkdirAll fs ("downloads")) (goJoin2 ("downloads") name)).files
        = fs.files := by
      rw [mkdirAll_files, mkdirAll_files]
    rw [hfiles]
    have hfilter : fs.files.filter
        (fun pc => strStartsWith pc.1 (goJoin2 ("downloads") name ++ pathSep)
          && isCodeFile (goExt pc.1)) = [] := by
      rw [List.filter_eq_nil_iff]
      intro pc hpc
      rw [hnofiles pc hpc]
      simp
    rw [hfilter]
    show Except.ok (codeFilesHeader (goJoin2 ("downloads") name) ++ String.join []) = _
    rw [show String.join [] = "" from rfl, string_append_empty]

/-- Witness for the amended claim C6, at the empty filesystem and function
name `fn-b`. -/
theorem unsupported_download_then_view_files_witness :
    (∀ pc ∈ fs0.files,
      strStartsWith pc.1 (goJoin2 ("downloads") ("fn-b") ++ pathSep) = false) ∧
    ((downloadFunctionCodeCmd fs0 (.upload ("https://u")) ("proj") ("fn-b")).2
       = Except.error ("download failed: source upload URL type not supported for direct download") ∧
     (downloadFunctionCodeCmd fs0 (.upload ("https://u")) ("proj") ("fn-b")).1.dirs.contains
       (goJoin2 ("downloads") ("fn-b")) = true ∧
     loadCodeFiles (downloadFunctionCodeCmd fs0 (.upload ("https://u")) ("proj") ("fn-b")).1
       ("fn-b") = Except.ok (codeFilesHeader (goJoin2 ("downloads") ("fn-b")))) :=
  ⟨by decide,
   unsupported_download_then_view_files fs0 ("https://u") ("proj") ("fn-b") (by decide)⟩

/-! ### Real-time log buffer bound (claim C7) -/

/-- Counterexample for claim C7 as stated: with the buffer already holding
1000 entries, the stream-stopped marker appended by the `s` key is not
subject to the bound check, so the buffer grows to 1001 entries. -/
theorem buffer_bound_violated_by_stop_marker_counterexample :
    mB0.realTimeLogs.length = 1000 ∧
    (update mB0 (Msg.key (Key.char 's'))).1.realTimeLogs.length = 1001 := by
  constructor
  · have h1 : mB0.realTimeLogs = List.replicate 1000 ("x") := rfl
    rw [h1, List.length_replicate]
  · have h2 : (update mB0 (Msg.key (Key.char 's'))).1.realTimeLogs
        = List.replicate 1000 ("x") ++ ["⏹️  Log streaming stopped"] := rfl
    rw [h2, List.length_append, List.length_replicate]
    rfl

/-- Claim C7, amended: only the new-log-line handler enforces the 1000-entry
bound — after appending it drops the oldest entry when the buffer exceeds
1000, so a buffer of at most 1000 entries stays at most 1000 across new log
entries; the stream-stopped and stream-error markers are appended without any
truncation and can push the buffer past 1000. -/
theorem new_log_entry_preserves_buffer_bound (m : Model) (t : Nat) (e : LogEntry)
    (h : m.realTimeLogs.length ≤ 1000) :
    (update m (Msg.newLogEntry t e)).1.realTimeLogs.length ≤ 1000 := by
  cases hs : m.streamingLogs
  · simp only [update, hs]
    simpa using h
  · have hred : (update m (Msg.newLogEntry t e)).1.realTimeLogs
        = (if 1000 < (m.realTimeLogs ++ [formatLogLine e]).length
           then (m.realTimeLogs ++ [formatLogLine e]).tail
           else m.realTimeLogs ++ [formatLogLine e]) := by
      simp only [update, hs]
      simp
    rw [hred]
    split <;>
      rename_i hc <;>
      simp only [List.length_tail, List.length_append, List.length_singleton] at hc ⊢ <;>
      omega

/-- Witness for the amended claim C7, at a streaming state with a one-entry
buffer. -/
theorem new_log_entry_preserves_buffer_bound_witness :
    mBsmall.realTimeLogs.length ≤ 1000 ∧
    (update mBsmall (Msg.newLogEntry 1 lateEntry)).1.realTimeLogs.length ≤ 1000 :=
  ⟨by decide, new_log_entry_preserves_buffer_bound mBsmall 1 lateEntry (by decide)⟩

/-! ### Quit keys (claims C8 and C10) -/

/-- Claim C8: pressing `q` issues the quit command exactly when the current
view is List and the input mode is Normal; in every other view/mode
combination the key produces no quit command (in the input modes it is
ordinary text input). -/
theorem q_quits_exactly_in_list_normal (m : Model) :
    Cmd.quit ∈ (update m (Msg.key (Key.char 'q'))).2 ↔
      (m.currentView = ViewType.ListView ∧ m.inputMode = InputMode.NormalMode) := by
  rcases m with ⟨tb, vp, ti, ta, fns, afns, acc, cv, sf, env, im, em, oc, fa, af, w, h, ld,
    er, sl, sc, rtl, lse, ctr⟩
  cases im <;> cases cv
  all_goals first
    | (exact Iff.intro (fun _ => ⟨rfl, rfl⟩) (fun _ => List.mem_cons_self _ _))
    | (exact Iff.intro (fun hmem => absurd hmem (List.not_mem_nil _))
        (fun hand => by simp at hand))

/-- Claim C10: pressing ctrl+c issues the quit command from every view and
every input mode, leaving the model unchanged. -/
theorem ctrl_c_always_quits (m : Model) :
    update m (Msg.key Key.ctrlC) = (m, [Cmd.quit]) := by
  rcases m with ⟨tb, vp, ti, ta, fns, afns, acc, cv, sf, env, im, em, oc, fa, af, w, h, ld,
    er, sl, sc, rtl, lse, ctr⟩
  cases im <;> rfl

/-! ### Window resize (claim C9) -/

/-- Claim C9: a window-resize event only changes layout-derived fields (the
stored width/height, table height and column widths, viewport and textarea
dimensions); every domain field — view, input mode, both function lists, the
selection, filter state, streaming state, log buffer, errors, and the text
contents of the widgets — is unchanged, and no command is issued. -/
theorem resize_preserves_domain_state (m : Model) (w h : Int) :
    (update m (Msg.windowSize w h)).1.currentView = m.currentView ∧
    (update m (Msg.windowSize w h)).1.inputMode = m.inputMode ∧
    (update m (Msg.windowSize w h)).1.functions = m.functions ∧
    (update m (Msg.windowSize w h)).1.allFunctions = m.allFunctions ∧
    (update m (Msg.windowSize w h)).1.selectedFunc = m.selectedFunc ∧
    (update m (Msg.windowSize w h)).1.accountID = m.accountID ∧
    (update m (Msg.windowSize w h)).1.environment = m.environment ∧
    (update m (Msg.windowSize w h)).1.editMode = m.editMode ∧
    (update m (Msg.windowSize w h)).1.originalContent = m.originalContent ∧
    (update m (Msg.windowSize w h)).1.filterActive = m.filterActive ∧
    (update m (Msg.windowSize w h)).1.activeFilter = m.activeFilter ∧
    (update m (Msg.windowSize w h)).1.loading = m.loading ∧
    (update m (Msg.windowSize w h)).1.err = m.err ∧
    (update m (Msg.windowSize w h)).1.streamingLogs = m.streamingLogs ∧
    (update m (Msg.windowSize w h)).1.streamCancel = m.streamCancel ∧
    (update m (Msg.windowSize w h)).1.realTimeLogs = m.realTimeLogs ∧
    (update m (Msg.windowSize w h)).1.logStreamErr = m.logStreamErr ∧
    (update m (Msg.windowSize w h)).1.sessionCtr = m.sessionCtr ∧
    (update m (Msg.windowSize w h)).1.textInput = m.textInput ∧
    (update m (Msg.windowSize w h)).1.table.rows = m.table.rows ∧
    (update m (Msg.windowSize w h)).1.table.cursor = m.table.cursor ∧
    (update m (Msg.windowSize w h)).1.viewport.content = m.viewport.content ∧
    (update m (Msg.windowSize w h)).1.textarea.value = m.textarea.value ∧
    (update m (Msg.windowSize w h)).2 = [] :=
  ⟨rfl, rfl, rfl, rfl, rfl, rfl, rfl, rfl, rfl, rfl, rfl, rfl, rfl, rfl, rfl, rfl, rfl,
   rfl, rfl, rfl, rfl, rfl, rfl, rfl⟩
